import Mathlib

/-
Verification of the calculator crate (src/examples/rust/src/lib.rs and
src/examples/rust/src/operations.rs) against its natural-language
specification.

Modelling decisions, stated once here:

A Rust f64 is modelled by the inductive type F64 below.  The model keeps
the IEEE-754 special values that the source code can observe (NaN, the two
infinities, and the two signed zeros) and carries an exact rational payload
for every other finite value.  IEEE-754 rounding of finite results is
abstracted: the model computes finite arithmetic exactly over the rationals.
No claim in this development depends on rounding; the claims speak about
which abstract floating-point value an operation returns (for example, that
add returns exactly the floating-point sum of its operands, with fadd
standing for that floating-point sum), about control flow on zero tests,
and about history side effects.

Transcendental library functions (sin, cos, ln, sqrt, powf of f64) are not
part of this repository; they are modelled by total computable functions
fsin, fcos, fln, fsqrt, fpow whose special-value structure (NaN, infinity
and sign-of-zero behaviour, the domain on which NaN is produced) follows
IEEE-754 and the Rust standard library documentation, and whose finite
payloads are computable rational approximations.  No claim depends on the
approximate payloads except at points where the value is exact (for
example the square root of four).

Rust methods taking a mutable borrow of the receiver are embedded as state
passing functions returning a pair of the result and the updated receiver;
methods taking a shared borrow return the result paired with the receiver
itself, which records at the type level that a shared borrow cannot mutate.
A Rust panic (the expect call inside calculate) is modelled by Option:
none is the fatal stop, some is a normal return.
-/

/-- Model of a Rust f64 value: NaN, the two infinities, negative zero, or a
finite value carried as an exact rational.  The constructor finite 0 is
positive zero; negZero is the distinct IEEE-754 negative zero. -/
inductive F64 : Type where
  | nan : F64
  | posInf : F64
  | negInf : F64
  | negZero : F64
  | finite : ℚ → F64
deriving DecidableEq, Repr

namespace F64

/-- True on NaN. -/
def isNan : F64 → Bool
  | nan => true
  | _ => false

/-- True on either infinity. -/
def isInf : F64 → Bool
  | posInf => true
  | negInf => true
  | _ => false

/-- True on either signed zero. -/
def isZero : F64 → Bool
  | negZero => true
  | finite q => decide (q = 0)
  | _ => false

/-- Sign bit of the value, true when negative.  NaN is given sign false;
no modelled operation inspects the sign of NaN. -/
def sign : F64 → Bool
  | nan => false
  | posInf => false
  | negInf => true
  | negZero => true
  | finite q => decide (q < 0)

/-- Rational payload of a finite value; both signed zeros map to 0. -/
def toRat : F64 → ℚ
  | finite q => q
  | _ => 0

/-- The signed zero with the given sign bit. -/
def zeroOfSign (s : Bool) : F64 :=
  if s then negZero else finite 0

/-- The infinity with the given sign bit. -/
def infOfSign (s : Bool) : F64 :=
  if s then negInf else posInf

/-- Model of the IEEE-754 test x == 0.0 as written in the source guard of
divide: false on NaN and on the infinities, true on both signed zeros. -/
def eqZero : F64 → Bool
  | negZero => true
  | finite q => decide (q = 0)
  | _ => false

/-- Model of the IEEE-754 test x <= 0.0 as written in the source guard of
ln: false on NaN, true on negative infinity, both zeros and nonpositive
finite values. -/
def leZero : F64 → Bool
  | nan => false
  | posInf => false
  | negInf => true
  | negZero => true
  | finite q => decide (q ≤ 0)

end F64

/-- Model of IEEE-754 addition of two f64 values.  Special values follow
IEEE-754: NaN is absorbing, opposite infinities give NaN, an exact zero sum
of nonzero operands is positive zero, and negative zero results only from
adding two negative zeros.  Finite arithmetic is exact (rounding
abstracted). -/
def fadd (x y : F64) : F64 :=
  if x.isNan || y.isNan then F64.nan
  else if x.isInf && y.isInf then (if x.sign = y.sign then x else F64.nan)
  else if x.isInf then x
  else if y.isInf then y
  else
    let s := x.toRat + y.toRat
    if s = 0 then (if x.sign && y.sign then F64.negZero else F64.finite 0)
    else F64.finite s

/-- Model of IEEE-754 negation: flips the sign bit, including on zeros. -/
def fneg : F64 → F64
  | F64.nan => F64.nan
  | F64.posInf => F64.negInf
  | F64.negInf => F64.posInf
  | F64.negZero => F64.finite 0
  | F64.finite q => if q = 0 then F64.negZero else F64.finite (-q)

/-- Model of IEEE-754 subtraction; IEEE-754 subtraction is exactly the
addition of the negated second operand. -/
def fsub (x y : F64) : F64 :=
  fadd x (fneg y)

/-- Model of IEEE-754 multiplication.  NaN is absorbing, infinity times
zero is NaN, and a zero product carries the exclusive-or of the operand
signs.  Finite arithmetic is exact (rounding abstracted). -/
def fmul (x y : F64) : F64 :=
  if x.isNan || y.isNan then F64.nan
  else if x.isInf || y.isInf then
    (if x.isZero || y.isZero then F64.nan
     else F64.infOfSign (x.sign != y.sign))
  else
    let p := x.toRat * y.toRat
    if p = 0 then F64.zeroOfSign (x.sign != y.sign) else F64.finite p

/-- Model of IEEE-754 division.  NaN is absorbing; infinity over infinity
and zero over zero give NaN; a finite nonzero value over zero gives a
signed infinity; division by infinity gives a signed zero.  Finite
arithmetic is exact (rounding abstracted). -/
def fdiv (x y : F64) : F64 :=
  if x.isNan || y.isNan then F64.nan
  else if x.isInf then
    (if y.isInf then F64.nan else F64.infOfSign (x.sign != y.sign))
  else if y.isInf then F64.zeroOfSign (x.sign != y.sign)
  else if y.isZero then
    (if x.isZero then F64.nan else F64.infOfSign (x.sign != y.sign))
  else if x.isZero then F64.zeroOfSign (x.sign != y.sign)
  else F64.finite (x.toRat / y.toRat)

/-- Mirror of the Rust enum Operation from operations.rs. -/
inductive Operation : Type where
  | Add : Operation
  | Subtract : Operation
  | Multiply : Operation
  | Divide : Operation
deriving DecidableEq, Repr

/-- Mirror of the Rust struct OperationResult from operations.rs: the two
operands, the operation tag and the computed result. -/
structure OperationResult : Type where
  operand_a : F64
  operand_b : F64
  operation : Operation
  result : F64
deriving DecidableEq, Repr

/-- Mirror of the Rust enum CalculatorError from lib.rs: the only two
error kinds are DivisionByZero and Overflow. -/
inductive CalculatorError : Type where
  | DivisionByZero : CalculatorError
  | Overflow : CalculatorError
deriving DecidableEq, Repr

/-- Mirror of the Rust struct Calculator: a history of operation results,
the Rust Vec embedded as a list with push appending at the end. -/
structure Calculator : Type where
  history : List OperationResult
deriving DecidableEq, Repr

namespace Calculator

/-- Mirror of Calculator::new: empty history. -/
def new : Calculator := ⟨[]⟩

/-- Mirror of the private Calculator::record: pushes one OperationResult
onto the end of the history vector. -/
def record (c : Calculator) (a b : F64) (op : Operation) (result : F64) :
    Calculator :=
  ⟨c.history ++ [⟨a, b, op, result⟩]⟩

/-- Mirror of Calculator::add: computes a + b, records it, returns it. -/
def add (c : Calculator) (a b : F64) : F64 × Calculator :=
  let result := fadd a b
  (result, c.record a b Operation.Add result)

/-- Mirror of Calculator::subtract: computes a - b, records it, returns
it. -/
def subtract (c : Calculator) (a b : F64) : F64 × Calculator :=
  let result := fsub a b
  (result, c.record a b Operation.Subtract result)

/-- Mirror of Calculator::multiply: computes a * b, records it, returns
it. -/
def multiply (c : Calculator) (a b : F64) : F64 × Calculator :=
  let result := fmul a b
  (result, c.record a b Operation.Multiply result)

/-- Mirror of Calculator::divide: if b == 0.0 returns the DivisionByZero
error without touching the state; otherwise computes a / b, records it and
returns Ok of it. -/
def divide (c : Calculator) (a b : F64) :
    Except CalculatorError F64 × Calculator :=
  if b.eqZero then (Except.error CalculatorError.DivisionByZero, c)
  else
    let result := fdiv a b
    (Except.ok result, c.record a b Operation.Divide result)

/-- Mirror of Calculator::calculate: dispatches on the Operation tag; the
Divide arm unwraps divide with expect, which panics on the DivisionByZero
error.  The panic is modelled as none. -/
def calculate (c : Calculator) (a b : F64) (op : Operation) :
    Option (F64 × Calculator) :=
  match op with
  | Operation.Add => some (c.add a b)
  | Operation.Subtract => some (c.subtract a b)
  | Operation.Multiply => some (c.multiply a b)
  | Operation.Divide =>
    match c.divide a b with
    | (Except.ok r, c1) => some (r, c1)
    | (Except.error _, _) => none

/-- Mirror of Calculator::clear_history: empties the history vector. -/
def clear_history (_c : Calculator) : Calculator :=
  ⟨[]⟩

end Calculator

/-- One client-visible mutating call on a Calculator, used to state the
history-length invariant over arbitrary call sequences. -/
inductive Cmd : Type where
  | add : F64 → F64 → Cmd
  | subtract : F64 → F64 → Cmd
  | multiply : F64 → F64 → Cmd
  | divide : F64 → F64 → Cmd
  | clearHistory : Cmd
deriving DecidableEq, Repr

/-- State effect of one call, discarding the returned value. -/
def Calculator.step (c : Calculator) : Cmd → Calculator
  | Cmd.add a b => (c.add a b).2
  | Cmd.subtract a b => (c.subtract a b).2
  | Cmd.multiply a b => (c.multiply a b).2
  | Cmd.divide a b => (c.divide a b).2
  | Cmd.clearHistory => c.clear_history

/-- Runs a sequence of calls left to right. -/
def Calculator.run (c : Calculator) (cs : List Cmd) : Calculator :=
  cs.foldl Calculator.step c

/-- Count update for one call: a successful basic operation adds one, a
failed divide (zero divisor) adds nothing, clearHistory resets to zero. -/
def countStep (n : ℕ) : Cmd → ℕ
  | Cmd.add _ _ => n + 1
  | Cmd.subtract _ _ => n + 1
  | Cmd.multiply _ _ => n + 1
  | Cmd.divide _ b => if b.eqZero then n else n + 1
  | Cmd.clearHistory => 0

/-- Number of successful basic-operation calls since the most recent
clearHistory in the sequence (or since its start when it has none). -/
def countSinceClear (cs : List Cmd) : ℕ :=
  cs.foldl countStep 0

/-- Exact rational value of the f64 constant for pi in the Rust standard
library (the IEEE-754 double nearest to pi). -/
def piRat : ℚ := 884279719003555 / 281474976710656

/-- The f64 constant for pi. -/
def piF : F64 := F64.finite piRat

/-- Mirror of f64::to_radians: multiplies by the constant pi over 180 as
computed in f64 (here: the modelled division of the pi constant by 180). -/
def F64.toRadians (x : F64) : F64 :=
  fmul x (fdiv piF (F64.finite 180))

/-- Rational polynomial approximation used as the finite payload of the
sine model; its values are irrelevant to every claim. -/
def sinQ (q : ℚ) : ℚ :=
  q - q ^ 3 / 6 + q ^ 5 / 120 - q ^ 7 / 5040

/-- Rational polynomial approximation used as the finite payload of the
cosine model; its values are irrelevant to every claim. -/
def cosQ (q : ℚ) : ℚ :=
  1 - q ^ 2 / 2 + q ^ 4 / 24 - q ^ 6 / 720

/-- Rational approximation used as the finite payload of the natural
logarithm model on positive inputs; its values are irrelevant to every
claim. -/
def lnQ (q : ℚ) : ℚ :=
  let t := (q - 1) / (q + 1)
  2 * (t + t ^ 3 / 3 + t ^ 5 / 5 + t ^ 7 / 7)

/-- Rational approximation used as the finite payload of the exponential
inside the power model; its values are irrelevant to every claim. -/
def expQ (q : ℚ) : ℚ :=
  1 + q + q ^ 2 / 2 + q ^ 3 / 6 + q ^ 4 / 24 + q ^ 5 / 120

/-- Rational square root used as the finite payload of the square root
model: exact whenever the scaled radicand is a perfect square (in
particular on perfect squares such as 4), an approximation elsewhere. -/
def sqrtQ (q : ℚ) : ℚ :=
  (Nat.sqrt (q.num.toNat * q.den * 10 ^ 16) : ℚ) / (q.den * 10 ^ 8)

/-- Model of f64::sin: NaN on NaN and the infinities, negative zero on
negative zero, approximate payload on finite values. -/
def fsin : F64 → F64
  | F64.nan => F64.nan
  | F64.posInf => F64.nan
  | F64.negInf => F64.nan
  | F64.negZero => F64.negZero
  | F64.finite q => F64.finite (sinQ q)

/-- Model of f64::cos: NaN on NaN and the infinities, one on negative
zero, approximate payload on finite values. -/
def fcos : F64 → F64
  | F64.nan => F64.nan
  | F64.posInf => F64.nan
  | F64.negInf => F64.nan
  | F64.negZero => F64.finite 1
  | F64.finite q => F64.finite (cosQ q)

/-- Model of f64::ln: NaN on NaN, negative inputs and negative infinity;
negative infinity on both zeros; positive infinity on positive infinity;
approximate payload on positive finite values. -/
def fln : F64 → F64
  | F64.nan => F64.nan
  | F64.posInf => F64.posInf
  | F64.negInf => F64.nan
  | F64.negZero => F64.negInf
  | F64.finite q =>
    if q < 0 then F64.nan
    else if q = 0 then F64.negInf
    else F64.finite (lnQ q)

/-- Model of f64::sqrt: NaN on NaN, on negative infinity and on negative
finite inputs; the zeros and positive infinity map to themselves; positive
finite inputs map to the rational square root payload, exact on perfect
squares. -/
def fsqrt : F64 → F64
  | F64.nan => F64.nan
  | F64.posInf => F64.posInf
  | F64.negInf => F64.nan
  | F64.negZero => F64.negZero
  | F64.finite q =>
    if q < 0 then F64.nan
    else if q = 0 then F64.finite 0
    else F64.finite (sqrtQ q)

/-- Model of f64::powf.  NaN operands give NaN, a zero exponent gives one,
integer exponents give exact powers, other cases give an approximate
payload or NaN on a negative base; the infinity special-case table of powf
is simplified to NaN.  No claim depends on any value of this function. -/
def fpow (x y : F64) : F64 :=
  let x1 := if x = F64.negZero then F64.finite 0 else x
  match x1, y with
  | F64.finite _, F64.negZero => F64.finite 1
  | F64.finite b, F64.finite e =>
    if e = 0 then F64.finite 1
    else if e.den = 1 then
      (if 0 ≤ e.num then F64.finite (b ^ e.num.toNat)
       else if b = 0 then F64.posInf
       else F64.finite ((b ^ (-e.num).toNat)⁻¹))
    else if b < 0 then F64.nan
    else if b = 0 then F64.finite 0
    else F64.finite (expQ (e * lnQ b))
  | _, _ => F64.nan

/-- Mirror of the Rust struct ScientificCalculator: composition of one
Calculator plus the degree-mode flag. -/
structure ScientificCalculator : Type where
  basic : Calculator
  use_degrees : Bool
deriving DecidableEq, Repr

namespace ScientificCalculator

/-- Mirror of ScientificCalculator::new: fresh Calculator, radians mode. -/
def new : ScientificCalculator :=
  ⟨Calculator.new, false⟩

/-- Mirror of ScientificCalculator::set_use_degrees. -/
def set_use_degrees (sc : ScientificCalculator) (m : Bool) :
    ScientificCalculator :=
  ⟨sc.basic, m⟩

/-- Mirror of ScientificCalculator::sin: converts to radians when the
degree mode is on, then applies the sine.  The receiver is a shared
borrow; the returned state is the receiver itself. -/
def sin (sc : ScientificCalculator) (angle : F64) :
    F64 × ScientificCalculator :=
  let radians := if sc.use_degrees then angle.toRadians else angle
  (fsin radians, sc)

/-- Mirror of ScientificCalculator::cos, analogous to sin. -/
def cos (sc : ScientificCalculator) (angle : F64) :
    F64 × ScientificCalculator :=
  let radians := if sc.use_degrees then angle.toRadians else angle
  (fcos radians, sc)

/-- Mirror of ScientificCalculator::ln: the Overflow error on x <= 0.0,
otherwise Ok of the logarithm.  Shared borrow, state returned unchanged. -/
def ln (sc : ScientificCalculator) (x : F64) :
    Except CalculatorError F64 × ScientificCalculator :=
  if x.leZero then (Except.error CalculatorError.Overflow, sc)
  else (Except.ok (fln x), sc)

/-- Mirror of ScientificCalculator::sqrt: the library square root with no
domain check.  Shared borrow, state returned unchanged. -/
def sqrt (sc : ScientificCalculator) (x : F64) :
    F64 × ScientificCalculator :=
  (fsqrt x, sc)

/-- Mirror of ScientificCalculator::pow: the library powf.  Shared borrow,
state returned unchanged. -/
def pow (sc : ScientificCalculator) (base exponent : F64) :
    F64 × ScientificCalculator :=
  (fpow base exponent, sc)

end ScientificCalculator

/-- Helper: one call changes the history length exactly as countStep says. -/
theorem step_length (c : Calculator) (cmd : Cmd) :
    (c.step cmd).history.length = countStep c.history.length cmd := by
  cases cmd with
  | add a b => simp [Calculator.step, Calculator.add, Calculator.record, countStep]
  | subtract a b =>
    simp [Calculator.step, Calculator.subtract, Calculator.record, countStep]
  | multiply a b =>
    simp [Calculator.step, Calculator.multiply, Calculator.record, countStep]
  | divide a b =>
    cases hb : b.eqZero <;>
      simp [Calculator.step, Calculator.divide, hb, Calculator.record, countStep]
  | clearHistory => simp [Calculator.step, Calculator.clear_history, countStep]

/-- Helper: the history length after a run folds countStep over the calls. -/
theorem run_length (cs : List Cmd) :
    ∀ c : Calculator,
      (c.run cs).history.length = cs.foldl countStep c.history.length := by
  induction cs with
  | nil => intro c; rfl
  | cons cmd rest ih =>
    intro c
    have h1 : c.run (cmd :: rest) = (c.step cmd).run rest := rfl
    rw [h1, ih (c.step cmd), step_length]
    rfl

/-- C1: divide returns the DivisionByZero error exactly when the divisor
passes the IEEE-754 zero test; on failure the state (hence the history) is
returned untouched; on success it returns Ok of the quotient and the state
with exactly the one new record appended. -/
theorem divide_spec (c : Calculator) (a b : F64) :
    ((c.divide a b).1 = Except.error CalculatorError.DivisionByZero ↔
        b.eqZero = true)
    ∧ (b.eqZero = true →
        c.divide a b = (Except.error CalculatorError.DivisionByZero, c))
    ∧ (b.eqZero = false →
        c.divide a b
          = (Except.ok (fdiv a b), c.record a b Operation.Divide (fdiv a b)))
    ∧ (b.eqZero = false →
        (c.divide a b).2.history
          = c.history ++ [⟨a, b, Operation.Divide, fdiv a b⟩]) := by
  cases hb : b.eqZero <;>
    simp [Calculator.divide, hb, Calculator.record]

/-- C1 witness: the theorem applied at dividing ten by two on a fresh
calculator. -/
theorem divide_spec_w :
    Calculator.new.divide (F64.finite 10) (F64.finite 2)
      = (Except.ok (fdiv (F64.finite 10) (F64.finite 2)),
         Calculator.new.record (F64.finite 10) (F64.finite 2)
           Operation.Divide (fdiv (F64.finite 10) (F64.finite 2))) :=
  (divide_spec Calculator.new (F64.finite 10) (F64.finite 2)).2.2.1 (by decide)

/-- C2: over every call sequence from construction, the history length
equals the number of successful basic-operation calls since the most
recent clear (failed divides do not count), and clear_history always
leaves an empty history. -/
theorem history_length_spec (cs : List Cmd) (c : Calculator) :
    (Calculator.new.run cs).history.length = countSinceClear cs
    ∧ c.clear_history.history.length = 0 := by
  refine ⟨?_, rfl⟩
  have h := run_length cs Calculator.new
  simpa [countSinceClear, Calculator.new] using h

/-- C3: calculate dispatches on the Operation tag to the matching basic
operation; it halts fatally (modelled as none) exactly when the tag is
Divide and the divisor passes the zero test, and otherwise returns
normally with the dispatched result. -/
theorem calculate_spec (c : Calculator) (a b : F64) (op : Operation) :
    (c.calculate a b op = none ↔ (op = Operation.Divide ∧ b.eqZero = true))
    ∧ c.calculate a b Operation.Add = some (c.add a b)
    ∧ c.calculate a b Operation.Subtract = some (c.subtract a b)
    ∧ c.calculate a b Operation.Multiply = some (c.multiply a b)
    ∧ (b.eqZero = false →
        c.calculate a b Operation.Divide
          = some (fdiv a b, c.record a b Operation.Divide (fdiv a b))) := by
  refine ⟨?_, rfl, rfl, rfl, fun hb => ?_⟩
  · cases op <;> cases hb : b.eqZero <;>
      simp [Calculator.calculate, Calculator.divide, hb]
  · simp [Calculator.calculate, Calculator.divide, hb]

/-- C3 witness: the theorem applied at a nonzero divisor on a fresh
calculator. -/
theorem calculate_spec_w :
    Calculator.new.calculate (F64.finite 10) (F64.finite 2) Operation.Divide
      = some (fdiv (F64.finite 10) (F64.finite 2),
              Calculator.new.record (F64.finite 10) (F64.finite 2)
                Operation.Divide (fdiv (F64.finite 10) (F64.finite 2))) :=
  (calculate_spec Calculator.new (F64.finite 10) (F64.finite 2)
      Operation.Divide).2.2.2.2 (by decide)

/-- C4: add, subtract and multiply return exactly the modelled IEEE-754
sum, difference and product of their operands, always succeed, and append
exactly the one record holding the operands, the tag and the result. -/
theorem basic_ops_spec (c : Calculator) (a b : F64) :
    c.add a b
      = (fadd a b, ⟨c.history ++ [⟨a, b, Operation.Add, fadd a b⟩]⟩)
    ∧ c.subtract a b
      = (fsub a b, ⟨c.history ++ [⟨a, b, Operation.Subtract, fsub a b⟩]⟩)
    ∧ c.multiply a b
      = (fmul a b, ⟨c.history ++ [⟨a, b, Operation.Multiply, fmul a b⟩]⟩) :=
  ⟨rfl, rfl, rfl⟩

/-- C5: ln returns the Overflow error exactly when the argument passes the
IEEE-754 test x <= 0.0 (in particular at zero and at minus one), and
otherwise returns Ok of the natural logarithm; the error kind is Overflow,
the error enum having no dedicated domain kind. -/
theorem ln_spec (sc : ScientificCalculator) (x : F64) :
    ((sc.ln x).1 = Except.error CalculatorError.Overflow ↔ x.leZero = true)
    ∧ (x.leZero = true →
        sc.ln x = (Except.error CalculatorError.Overflow, sc))
    ∧ (x.leZero = false → sc.ln x = (Except.ok (fln x), sc))
    ∧ (sc.ln (F64.finite 0)).1 = Except.error CalculatorError.Overflow
    ∧ (sc.ln (F64.finite (-1))).1 = Except.error CalculatorError.Overflow := by
  refine ⟨?_, fun hx => ?_, fun hx => ?_, ?_, ?_⟩
  · cases hx : x.leZero <;> simp [ScientificCalculator.ln, hx]
  · simp [ScientificCalculator.ln, hx]
  · simp [ScientificCalculator.ln, hx]
  · norm_num [ScientificCalculator.ln, F64.leZero]
  · norm_num [ScientificCalculator.ln, F64.leZero]

/-- C5 witness: the theorem applied at one, a strictly positive input. -/
theorem ln_spec_w :
    ScientificCalculator.new.ln (F64.finite 1)
      = (Except.ok (fln (F64.finite 1)), ScientificCalculator.new) :=
  (ln_spec ScientificCalculator.new (F64.finite 1)).2.2.1 (by decide)

/-- C6: the five scientific operations return the receiver state
untouched, so the owned history never changes through them; by contrast a
basic operation reached through the owned Calculator appends one entry. -/
theorem scientific_frame (sc : ScientificCalculator) (x y : F64) :
    (sc.sin x).2 = sc
    ∧ (sc.cos x).2 = sc
    ∧ (sc.ln x).2 = sc
    ∧ (sc.sqrt x).2 = sc
    ∧ (sc.pow x y).2 = sc
    ∧ (sc.basic.add x y).2.history.length = sc.basic.history.length + 1 := by
  refine ⟨rfl, rfl, ?_, rfl, rfl, ?_⟩
  · cases hx : x.leZero <;> simp [ScientificCalculator.ln, hx]
  · simp [Calculator.add, Calculator.record]

/-- C7: sin and cos apply the underlying trig model to the angle converted
by the to-radians factor exactly when the degree mode is on and to the
angle itself otherwise; a fresh calculator starts in radians, and
set_use_degrees takes effect on the immediately following call. -/
theorem trig_spec (sc : ScientificCalculator) (angle : F64) :
    (sc.use_degrees = true →
        (sc.sin angle).1 = fsin angle.toRadians
        ∧ (sc.cos angle).1 = fcos angle.toRadians)
    ∧ (sc.use_degrees = false →
        (sc.sin angle).1 = fsin angle ∧ (sc.cos angle).1 = fcos angle)
    ∧ ScientificCalculator.new.use_degrees = false
    ∧ (∀ m : Bool,
        ((sc.set_use_degrees m).sin angle).1
            = fsin (if m then angle.toRadians else angle)
        ∧ ((sc.set_use_degrees m).cos angle).1
            = fcos (if m then angle.toRadians else angle)) := by
  refine ⟨fun h => ?_, fun h => ?_, rfl, fun m => ⟨rfl, rfl⟩⟩
  · constructor <;> simp [ScientificCalculator.sin, ScientificCalculator.cos, h]
  · constructor <;> simp [ScientificCalculator.sin, ScientificCalculator.cos, h]

/-- C7 witness: the theorem applied in degree mode right after
set_use_degrees and in the default radian mode of a fresh calculator. -/
theorem trig_spec_w :
    ((ScientificCalculator.new.set_use_degrees true).sin (F64.finite 1)).1
        = fsin (F64.finite 1).toRadians
    ∧ (ScientificCalculator.new.sin (F64.finite 1)).1 = fsin (F64.finite 1) :=
  ⟨((trig_spec (ScientificCalculator.new.set_use_degrees true)
      (F64.finite 1)).1 rfl).1,
   ((trig_spec ScientificCalculator.new (F64.finite 1)).2.1 rfl).1⟩

/-- Helper: the square root of forty quadrillion, needed to evaluate the
square root model at four. -/
theorem natSqrt_4e16 : Nat.sqrt 40000000000000000 = 200000000 :=
  (Nat.eq_sqrt.2 (by constructor <;> norm_num)).symm

/-- C8: sqrt applies the library square root model with no domain check:
at minus one it returns NaN rather than an error, and at four it returns
exactly two. -/
theorem sqrt_spec (sc : ScientificCalculator) (x : F64) :
    (sc.sqrt x).1 = fsqrt x
    ∧ (sc.sqrt (F64.finite (-1))).1 = F64.nan
    ∧ (sc.sqrt (F64.finite 4)).1 = F64.finite 2 := by
  refine ⟨rfl, ?_, ?_⟩
  · norm_num [ScientificCalculator.sqrt, fsqrt]
  · have h4 : Int.toNat 4 * 10000000000000000 = 40000000000000000 := rfl
    norm_num [ScientificCalculator.sqrt, fsqrt, sqrtQ, h4, natSqrt_4e16]

/-- C9: a negative-zero divisor passes the IEEE-754 zero test, so divide
rejects it with the DivisionByZero error and returns the state (hence the
history) untouched. -/
theorem divide_negzero_spec (c : Calculator) (a : F64) :
    c.divide a F64.negZero = (Except.error CalculatorError.DivisionByZero, c)
    ∧ F64.eqZero F64.negZero = true :=
  ⟨rfl, rfl⟩

/-- C10: on Add, Subtract and Multiply, and on Divide with a divisor
failing the zero test, calculate returns normally with exactly the value
and the final state of the corresponding direct method, and on each such
input the final history is the initial one with exactly one entry
appended. -/
theorem calculate_refines (c : Calculator) (a b : F64) :
    c.calculate a b Operation.Add = some (c.add a b)
    ∧ c.calculate a b Operation.Subtract = some (c.subtract a b)
    ∧ c.calculate a b Operation.Multiply = some (c.multiply a b)
    ∧ (b.eqZero = false →
        c.calculate a b Operation.Divide = some (fdiv a b, (c.divide a b).2)
        ∧ (c.divide a b).1 = Except.ok (fdiv a b))
    ∧ (∀ op : Operation, (op = Operation.Divide → b.eqZero = false) →
        ∃ r c1, c.calculate a b op = some (r, c1)
          ∧ c1.history = c.history ++ [⟨a, b, op, r⟩]) := by
  refine ⟨rfl, rfl, rfl, fun hb => ?_, fun op hop => ?_⟩
  · constructor <;> simp [Calculator.calculate, Calculator.divide, hb]
  · cases op with
    | Add => exact ⟨fadd a b, _, rfl, rfl⟩
    | Subtract => exact ⟨fsub a b, _, rfl, rfl⟩
    | Multiply => exact ⟨fmul a b, _, rfl, rfl⟩
    | Divide =>
      have hb := hop rfl
      exact ⟨fdiv a b, c.record a b Operation.Divide (fdiv a b),
        by simp [Calculator.calculate, Calculator.divide, hb],
        by simp [Calculator.record]⟩

/-- C10 witness: the theorem applied at a nonzero divisor and at an Add
call on a fresh calculator. -/
theorem calculate_refines_w :
    (Calculator.new.calculate (F64.finite 10) (F64.finite 2) Operation.Divide
        = some (fdiv (F64.finite 10) (F64.finite 2),
                (Calculator.new.divide (F64.finite 10) (F64.finite 2)).2))
    ∧ ∃ r c1,
        Calculator.new.calculate (F64.finite 1) (F64.finite 2) Operation.Add
          = some (r, c1)
        ∧ c1.history
          = Calculator.new.history ++ [⟨F64.finite 1, F64.finite 2, Operation.Add, r⟩] :=
  ⟨((calculate_refines Calculator.new (F64.finite 10) (F64.finite 2)).2.2.2.1
      (by decide)).1,
   (calculate_refines Calculator.new (F64.finite 1) (F64.finite 2)).2.2.2.2
      Operation.Add (by decide)⟩
